import Mathlib

/-!
Verification of the HTML-to-Markdown converter `convert_html_to_md.py`.

The source program is a streaming HTML-to-Markdown transformer built on
Python's `html.parser.HTMLParser`: a `CriteriaHTMLParser` class holding
mutable state (`content`, `current_tag`, `in_header`, `in_title`,
`in_strong`, `in_blockquote`, `in_list`, `list_level`, `small_text_level`)
and three event handlers (`handle_starttag`, `handle_endtag`,
`handle_data`), plus a driver `main` that joins per-file fragments with a
separator and collapses runs of three or more newlines.

This file gives a shallow embedding: the parser state is a structure, the
handlers are pure functions from state to state, documents are lists of
tokenizer events, and machine integers are `Int` (Python integers are
unbounded, so no modular arithmetic is needed).
-/

/-- Python whitespace for `str.strip` / regex `\s` restricted to ASCII
(space, tab, newline, carriage return, vertical tab, form feed); the
inputs under consideration are ASCII. -/
def isPySpace (c : Char) : Bool :=
  c = ' ' || c = '\t' || c = '\n' || c = '\r' || c = '\x0b' || c = '\x0c'

/-- Python `str.strip()`: drop leading and trailing whitespace. -/
def pyStrip (s : String) : String :=
  String.mk (((s.data.dropWhile isPySpace).reverse.dropWhile isPySpace).reverse)

/-- Python `data.replace('\n', ' ')`: replace each newline by a space. -/
def replaceNlBySpace (s : String) : String :=
  String.mk (s.data.map (fun c => if c = '\n' then ' ' else c))

/-- Core of `re.sub(r'\s+', ' ', data)`: collapse each maximal run of
whitespace characters into a single space. -/
def collapseWsList : List Char → List Char
  | [] => []
  | c :: rest =>
    if isPySpace c then
      match rest with
      | [] => [' ']
      | c2 :: rest2 =>
        if isPySpace c2 then collapseWsList (c2 :: rest2)
        else ' ' :: collapseWsList (c2 :: rest2)
    else c :: collapseWsList rest

/-- `re.sub(r'\s+', ' ', data)` on strings. -/
def collapseWs (s : String) : String :=
  String.mk (collapseWsList s.data)

/-- `matchesAt n h = true` iff `n` is an initial segment of `h`. -/
def matchesAt : List Char → List Char → Bool
  | [], _ => true
  | _ :: _, [] => false
  | a :: as, b :: bs => a == b && matchesAt as bs

/-- Python `needle in hay` on strings: substring containment. -/
def strContains (needle hay : String) : Bool :=
  hay.data.tails.any (matchesAt needle.data)

/-- Python `''.join(fragments)` (and the explicit concatenation used by
`main`): concatenate a list of strings. -/
def strJoin : List String → String
  | [] => ""
  | s :: rest => s ++ strJoin rest

/-- Python `data.split('\n')` on character lists: split on newline,
keeping empty segments, never returning an empty list of segments. -/
def splitOnNlList : List Char → List (List Char)
  | [] => [[]]
  | c :: rest =>
    if c = '\n' then [] :: splitOnNlList rest
    else
      match splitOnNlList rest with
      | s :: ss => (c :: s) :: ss
      | [] => [[c]]

/-- Python `data.split('\n')` on strings. -/
def splitOnNl (s : String) : List String :=
  (splitOnNlList s.data).map String.mk

/-- Python `dict(attrs).get('style', '')`: the value bound to `name` in the
attribute list, the last binding winning as in `dict`, or `""`. -/
def getAttr (attrs : List (String × String)) (name : String) : String :=
  match attrs.reverse.find? (fun p => p.fst == name) with
  | some p => p.snd
  | none => ""

/-- Python `s * n` for a possibly negative count: `n` copies of `s` when
`n > 0`, the empty string otherwise. -/
def pyRepeat (s : String) (n : Int) : String :=
  strJoin (List.replicate n.toNat s)

/-- The mutable instance state of `CriteriaHTMLParser.__init__`. -/
structure ParserState where
  content : List String
  current_tag : Option String
  in_header : Bool
  in_title : Bool
  in_strong : Bool
  in_blockquote : Bool
  in_list : Bool
  list_level : Int
  small_text_level : Int
  deriving Repr, DecidableEq

/-- The fresh state built by `CriteriaHTMLParser.__init__`. -/
def initState : ParserState :=
  { content := [], current_tag := none, in_header := false, in_title := false,
    in_strong := false, in_blockquote := false, in_list := false,
    list_level := 0, small_text_level := 0 }

/-- `CriteriaHTMLParser.handle_starttag(tag, attrs)`. -/
def handle_starttag (st : ParserState) (tag : String)
    (attrs : List (String × String)) : ParserState :=
  let st := { st with current_tag := some tag }
  if tag = "h1" then { st with in_header := true }
  else if tag = "h3" then st
  else if tag = "strong" then { st with in_strong := true }
  else if tag = "blockquote" then { st with in_blockquote := true }
  else if tag = "ul" then { st with list_level := st.list_level + 1, in_list := true }
  else if tag = "li" then
    let style := getAttr attrs "style"
    let marker := if strContains "circle" style then "  - " else "- "
    let indent := pyRepeat "  " (st.list_level - 1)
    { st with content := st.content ++ [indent ++ marker] }
  else if tag = "span" then
    let style := getAttr attrs "style"
    if strContains "font-size:0.8em" style || strContains "opacity:0.8" style then
      { st with small_text_level := st.small_text_level + 1 }
    else st
  else st

/-- `CriteriaHTMLParser.handle_endtag(tag)`. -/
def handle_endtag (st : ParserState) (tag : String) : ParserState :=
  let st :=
    if tag = "h1" then { st with in_header := false, content := st.content ++ ["\n\n"] }
    else if tag = "h3" then { st with content := st.content ++ ["\n\n"] }
    else if tag = "strong" then { st with in_strong := false }
    else if tag = "blockquote" then
      { st with in_blockquote := false, content := st.content ++ ["\n"] }
    else if tag = "ul" then
      let st := { st with list_level := st.list_level - 1 }
      if st.list_level = 0 then
        { st with in_list := false, content := st.content ++ ["\n"] }
      else st
    else if tag = "li" then { st with content := st.content ++ ["\n"] }
    else if tag = "span" then
      if 0 < st.small_text_level then
        { st with small_text_level := st.small_text_level - 1 }
      else st
    else if tag = "p" then
      if st.in_blockquote then st else { st with content := st.content ++ ["\n"] }
    else st
  { st with current_tag := none }

/-- `CriteriaHTMLParser.handle_data(data)`. -/
def handle_data (st : ParserState) (raw : String) : ParserState :=
  let data := pyStrip raw
  if data = "" then st
  else
    let data := collapseWs (replaceNlBySpace data)
    if st.in_header ∧ st.current_tag = some "h1" then
      { st with content := st.content ++ ["## " ++ data] }
    else if st.current_tag = some "h3" then
      { st with content := st.content ++ ["### " ++ data] }
    else if st.in_strong then
      { st with content := st.content ++ ["**" ++ data ++ "**"] }
    else if st.in_blockquote then
      let lines := splitOnNl data
      { st with content := st.content ++
          lines.filterMap (fun l =>
            if pyStrip l = "" then none else some ("> " ++ pyStrip l ++ "\n")) }
    else if 0 < st.small_text_level then
      { st with content := st.content ++ [" *(" ++ data ++ ")*"] }
    else
      if data = "" then st else { st with content := st.content ++ [data] }

/-- `CriteriaHTMLParser.get_content()`: `''.join(self.content)`. -/
def get_content (st : ParserState) : String :=
  strJoin st.content

/-- A tokenizer event delivered by the streaming HTML tokenizer to the
three handlers: open tag with attributes, close tag, or character data. -/
inductive HEvent where
  | startTag (tag : String) (attrs : List (String × String))
  | endTag (tag : String)
  | text (data : String)
  deriving Repr, DecidableEq

/-- Dispatch one tokenizer event to the matching handler, as
`HTMLParser.feed` does. -/
def processEvent (st : ParserState) (ev : HEvent) : ParserState :=
  match ev with
  | HEvent.startTag tag attrs => handle_starttag st tag attrs
  | HEvent.endTag tag => handle_endtag st tag
  | HEvent.text d => handle_data st d

/-- Run a whole event sequence from a given state. -/
def processEvents (evs : List HEvent) (st : ParserState) : ParserState :=
  evs.foldl processEvent st

/-- Characters up to (and consuming) the first occurrence of `stop`. -/
def takeUntil (stop : Char) : List Char → List Char × List Char
  | [] => ([], [])
  | c :: rest =>
    if c = stop then ([], rest)
    else
      let p := takeUntil stop rest
      (c :: p.1, p.2)

/-- Characters up to (not consuming) the first tag-open bracket. -/
def takeText : List Char → List Char × List Char
  | [] => ([], [])
  | c :: rest =>
    if c = '<' then ([], c :: rest)
    else
      let p := takeText rest
      (c :: p.1, p.2)

/-- Modelled from the spec: the language-provided lenient streaming HTML
tokenizer (`html.parser.HTMLParser`, standard library, outside `src/`),
restricted to what the concrete inputs of the claims use: `<name>` open
tags without attributes, `</name>` close tags, and character data. Fuel
bounds the recursion; each step consumes at least one character. -/
def tokenizeAux : Nat → List Char → List HEvent
  | 0, _ => []
  | _ + 1, [] => []
  | fuel + 1, c :: rest =>
    if c = '<' then
      match rest with
      | '/' :: rest2 =>
        let p := takeUntil '>' rest2
        HEvent.endTag (String.mk p.1) :: tokenizeAux fuel p.2
      | _ =>
        let p := takeUntil '>' rest
        HEvent.startTag (String.mk p.1) [] :: tokenizeAux fuel p.2
    else
      let p := takeText (c :: rest)
      HEvent.text (String.mk p.1) :: tokenizeAux fuel p.2

/-- Tokenize a whole document. -/
def tokenize (html : String) : List HEvent :=
  tokenizeAux (html.data.length + 1) html.data

/-- `transform(htmlText) -> markdownText`: `parse_html_file` minus the file
read — feed the text to a fresh parser and return the joined content. -/
def transform (html : String) : String :=
  get_content (processEvents (tokenize html) initState)

/-- The per-file joining loop of `main`: each found file's fragment is
appended, then the separator `"\n---\n\n"` is appended. -/
def joinFragments (frags : List String) : String :=
  strJoin (frags.map (fun f => f ++ "\n---\n\n"))

/-- Core of `re.sub(r'\n{3,}', '\n\n', s)`: scan with a counter `k` of
newline characters of the current run already emitted; a newline arriving
with `k ≥ 2` is dropped, so a run of `n ≥ 3` newlines is emitted as
exactly two and shorter runs are kept whole. -/
def normNlAux : Nat → List Char → List Char
  | _, [] => []
  | k, c :: rest =>
    if c = '\n' then
      if 2 ≤ k then normNlAux k rest
      else c :: normNlAux (k + 1) rest
    else c :: normNlAux 0 rest

/-- `re.sub(r'\n{3,}', '\n\n', s)` on strings: collapse every run of three
or more consecutive newlines to exactly two. -/
def normalizeNewlines (s : String) : String :=
  String.mk (normNlAux 0 s.data)

/-- Modelled from the spec: "declares a font size below 1em" — the style
attribute contains a `font-size` declaration of the form `font-size:0.<d>em`
for some digit `d`, a size strictly below one em. -/
def declaresFontSizeBelowOneEm (style : String) : Prop :=
  ∃ d : Nat, d ≤ 9 ∧ strContains ("font-size:0." ++ toString d ++ "em") style = true

/-- Number of unordered-list open-tag events in an event sequence. -/
def ulOpens : List HEvent → Nat
  | [] => 0
  | HEvent.startTag t _ :: rest => (if t = "ul" then 1 else 0) + ulOpens rest
  | _ :: rest => ulOpens rest

/-- Number of unordered-list close-tag events in an event sequence. -/
def ulCloses : List HEvent → Nat
  | [] => 0
  | HEvent.endTag t :: rest => (if t = "ul" then 1 else 0) + ulCloses rest
  | _ :: rest => ulCloses rest

/-- `handle_data` only appends to the buffer: the result is the input state
with some list of fragments appended to `content`. -/
theorem handle_data_frame (st : ParserState) (d : String) :
    ∃ frs, handle_data st d = { st with content := st.content ++ frs } := by
  simp only [handle_data]
  split_ifs <;> first
    | exact ⟨_, rfl⟩
    | (refine ⟨[], ?_⟩; simp)

/-- `handle_data` leaves `list_level` unchanged. -/
theorem handle_data_list_level (st : ParserState) (d : String) :
    (handle_data st d).list_level = st.list_level := by
  obtain ⟨frs, h⟩ := handle_data_frame st d
  rw [h]

/-- `handle_data` leaves `small_text_level` unchanged. -/
theorem handle_data_small_text_level (st : ParserState) (d : String) :
    (handle_data st d).small_text_level = st.small_text_level := by
  obtain ⟨frs, h⟩ := handle_data_frame st d
  rw [h]

set_option maxHeartbeats 1000000 in
/-- Effect of a single event on `list_level`: `+1` for a `ul` open, `-1`
for a `ul` close, `0` otherwise. -/
theorem processEvent_list_level (st : ParserState) (ev : HEvent) :
    (processEvent st ev).list_level =
      st.list_level +
        (match ev with
         | HEvent.startTag t _ => if t = "ul" then 1 else 0
         | HEvent.endTag t => if t = "ul" then -1 else 0
         | HEvent.text _ => 0) := by
  cases ev with
  | startTag t attrs =>
    simp only [processEvent, handle_starttag]
    split_ifs <;> simp_all
  | endTag t =>
    simp only [processEvent, handle_endtag]
    split_ifs <;> simp_all <;> omega
  | text d =>
    simp [processEvent, handle_data_list_level]

set_option maxHeartbeats 1000000 in
/-- A single event never drives `small_text_level` below zero. -/
theorem processEvent_small_nonneg (st : ParserState) (ev : HEvent)
    (h : 0 ≤ st.small_text_level) : 0 ≤ (processEvent st ev).small_text_level := by
  cases ev with
  | startTag t attrs =>
    simp only [processEvent, handle_starttag]
    split_ifs <;> simp_all <;> omega
  | endTag t =>
    simp only [processEvent, handle_endtag]
    split_ifs <;> simp_all <;> omega
  | text d =>
    simpa [processEvent, handle_data_small_text_level] using h

/-- Running an event sequence changes `list_level` by the number of `ul`
opens minus the number of `ul` closes. -/
theorem processEvents_list_level (evs : List HEvent) :
    ∀ st : ParserState,
      (processEvents evs st).list_level =
        st.list_level + (ulOpens evs : Int) - (ulCloses evs : Int) := by
  induction evs with
  | nil => intro st; simp [processEvents, ulOpens, ulCloses]
  | cons ev rest ih =>
    intro st
    have hstep : processEvents (ev :: rest) st = processEvents rest (processEvent st ev) := rfl
    rw [hstep, ih, processEvent_list_level]
    cases ev with
    | startTag t attrs => by_cases h : t = "ul" <;> simp [ulOpens, ulCloses, h] <;> omega
    | endTag t => by_cases h : t = "ul" <;> simp [ulOpens, ulCloses, h] <;> omega
    | text d => simp [ulOpens, ulCloses] <;> omega

/-- Running an event sequence never drives `small_text_level` below zero. -/
theorem processEvents_small_nonneg (evs : List HEvent) :
    ∀ st : ParserState, 0 ≤ st.small_text_level →
      0 ≤ (processEvents evs st).small_text_level := by
  induction evs with
  | nil => intro st h; simpa [processEvents] using h
  | cons ev rest ih =>
    intro st h
    exact ih (processEvent st ev) (processEvent_small_nonneg st ev h)

/-- Claim C1, counterexample: on `<blockquote>a\nb</blockquote>` the
transform does not emit `"> a\n"` at all — the whole output is
`"> a b\n\n"`, because `handle_data` replaces the embedded newline by a
space before the blockquote branch splits on newlines. -/
theorem c1_counterexample :
    transform "<blockquote>a\nb</blockquote>" = "> a b\n\n" ∧
    strContains "> a\n" (transform "<blockquote>a\nb</blockquote>") = false := by
  exact ⟨by decide, by decide⟩

/-- Claim C1, amended: for the input `<blockquote>a\nb</blockquote>`, the
data event first collapses the embedded newline into a space, so the
blockquote branch emits the single fragment `"> a b\n"`, and the close
event appends one trailing newline; the output is `"> a b\n\n"`. -/
theorem c1_amended :
    (processEvents (tokenize "<blockquote>a\nb</blockquote>") initState).content =
      ["> a b\n", "\n"] ∧
    transform "<blockquote>a\nb</blockquote>" = "> a b\n\n" := by
  exact ⟨by decide, by decide⟩

/-- Claim C2, counterexample: the joining loop of `main` appends the
separator `"\n---\n\n"` after every fragment, including the last, so
joining `"A"` and `"B"` yields `"A\n---\n\nB\n---\n\n"`, not
`"A\n---\n\nB"`. -/
theorem c2_counterexample :
    joinFragments ["A", "B"] = "A\n---\n\nB\n---\n\n" ∧
    joinFragments ["A", "B"] ≠ "A\n---\n\nB" := by
  exact ⟨by decide, by decide⟩

/-- Claim C2, amended: the joiner places the literal separator
`"\n---\n\n"` after every fragment (a trailing separator follows the final
fragment as well); joining `"A"` and `"B"` yields `"A\n---\n\nB\n---\n\n"`
before the newline-collapse normalization. -/
theorem c2_amended (A B : String) :
    joinFragments [A, B] = A ++ "\n---\n\n" ++ B ++ "\n---\n\n" := by
  simp [joinFragments, strJoin, String.append_assoc]

/-- Claim C3, counterexample: an unexpected `</ul>` close-tag event is not
ignored — from the fresh state it drives `list_level` to `-1`, violating
the claimed `listNestingDepth ≥ 0` invariant. -/
theorem c3_counterexample :
    (processEvents [HEvent.endTag "ul"] initState).list_level = -1 ∧
    ¬ 0 ≤ (processEvents [HEvent.endTag "ul"] initState).list_level := by
  exact ⟨by decide, by decide⟩

/-- Claim C3, amended: `smallTextDepth ≥ 0` is preserved by every event
sequence (the span close handler is guarded), and `listNestingDepth ≥ 0`
holds along every event sequence in which no prefix contains more `ul`
close-tag events than `ul` open-tag events; an unexpected `</ul>`
decrements the counter below zero. -/
theorem c3_amended (evs : List HEvent)
    (h : ∀ n, n ≤ evs.length →
      ulCloses (List.take n evs) ≤ ulOpens (List.take n evs)) :
    ∀ n, n ≤ evs.length →
      0 ≤ (processEvents (List.take n evs) initState).list_level ∧
      0 ≤ (processEvents (List.take n evs) initState).small_text_level := by
  intro n hn
  refine ⟨?_, processEvents_small_nonneg _ _ (by simp [initState])⟩
  rw [processEvents_list_level]
  have hb := h n hn
  simp only [initState]
  omega

/-- Claim C3, witness for the amended theorem at the balanced sequence
`[<ul>, </ul>]`. -/
theorem c3_amended_witness :
    (∀ n, n ≤ ([HEvent.startTag "ul" [], HEvent.endTag "ul"] : List HEvent).length →
      ulCloses (List.take n [HEvent.startTag "ul" [], HEvent.endTag "ul"]) ≤
        ulOpens (List.take n [HEvent.startTag "ul" [], HEvent.endTag "ul"])) ∧
    (∀ n, n ≤ ([HEvent.startTag "ul" [], HEvent.endTag "ul"] : List HEvent).length →
      0 ≤ (processEvents (List.take n [HEvent.startTag "ul" [], HEvent.endTag "ul"])
            initState).list_level ∧
      0 ≤ (processEvents (List.take n [HEvent.startTag "ul" [], HEvent.endTag "ul"])
            initState).small_text_level) :=
  ⟨by decide, c3_amended _ (by decide)⟩

/-- Claim C4, counterexample: the style `"font-size:0.9em"` declares a font
size below 1em, yet opening a span with it does not increment
`small_text_level` — the code only matches the exact substrings
`"font-size:0.8em"` and `"opacity:0.8"`. -/
theorem c4_counterexample :
    declaresFontSizeBelowOneEm "font-size:0.9em" ∧
    (handle_starttag initState "span" [("style", "font-size:0.9em")]).small_text_level = 0 :=
  ⟨⟨9, by decide⟩, by decide⟩

/-- Claim C4, amended: a span open-tag event increments `small_text_level`
exactly when its style attribute contains the substring
`"font-size:0.8em"` or the substring `"opacity:0.8"`; and a span with
style `"opacity:0.8"` wrapping `"note"` after prior plain text `"see"`
yields `"see *(note)*"`. -/
theorem c4_amended :
    (∀ (st : ParserState) (attrs : List (String × String)),
      (handle_starttag st "span" attrs).small_text_level =
        st.small_text_level +
          (if strContains "font-size:0.8em" (getAttr attrs "style")
              || strContains "opacity:0.8" (getAttr attrs "style") then 1 else 0)) ∧
    get_content (processEvents
      [HEvent.text "see", HEvent.startTag "span" [("style", "opacity:0.8")],
       HEvent.text "note", HEvent.endTag "span"] initState) = "see *(note)*" := by
  constructor
  · intro st attrs
    simp only [handle_starttag]
    split_ifs <;> simp_all
  · decide

/-- `n` copies of the two-space string are `2*n` space characters. -/
theorem strJoin_replicate_two_space (k : Nat) :
    strJoin (List.replicate k "  ") = String.mk (List.replicate (2 * k) ' ') := by
  induction k with
  | zero => rfl
  | succ n ih =>
    rw [List.replicate_succ, strJoin, ih]
    show String.mk ([' ', ' '] ++ List.replicate (2 * n) ' ') =
      String.mk (List.replicate (2 * (n + 1)) ' ')
    rw [Nat.mul_succ, Nat.add_comm, List.replicate_add]
    rfl

/-- Claim C5: a list-item open-tag event at `list_level = d ≥ 1` eagerly
appends the single fragment `indent ++ marker`, where `indent` is
`2*(d-1)` space characters and `marker` is `"  - "` when the style
attribute contains the substring `"circle"`, else `"- "`. -/
theorem c5_li_marker (st : ParserState) (attrs : List (String × String))
    (h : 1 ≤ st.list_level) :
    (handle_starttag st "li" attrs).content =
      st.content ++
        [String.mk (List.replicate (2 * (st.list_level - 1).toNat) ' ') ++
          (if strContains "circle" (getAttr attrs "style") then "  - " else "- ")] := by
  simp [handle_starttag, pyRepeat, strJoin_replicate_two_space]

/-- Claim C5, witness: a circle-styled `li` at depth 2. -/
theorem c5_li_marker_witness :
    1 ≤ ({ initState with list_level := 2 } : ParserState).list_level ∧
    (handle_starttag { initState with list_level := 2 } "li"
        [("style", "list-style-type:circle")]).content =
      ({ initState with list_level := 2 } : ParserState).content ++
        [String.mk (List.replicate
            (2 * (({ initState with list_level := 2 } : ParserState).list_level - 1).toNat) ' ') ++
          (if strContains "circle"
              (getAttr [("style", "list-style-type:circle")] "style") then "  - " else "- ")] :=
  ⟨by decide, c5_li_marker _ _ (by decide)⟩

/-- Claim C6: for the input `<h1>Title</h1>` the output is exactly
`"## Title\n\n"` — the data event emits `"## Title"` and the close event
appends two newlines. -/
theorem c6_h1_round_trip : transform "<h1>Title</h1>" = "## Title\n\n" := by
  decide

/-- Claim C7: every `h3` close-tag event appends exactly the fragment
`"\n\n"` to the buffer, for every state (independent of any `h1` state);
and the input `<h3>Sub</h3>` transforms to exactly `"### Sub\n\n"`. -/
theorem c7_h3_close :
    (∀ st : ParserState, (handle_endtag st "h3").content = st.content ++ ["\n\n"]) ∧
    transform "<h3>Sub</h3>" = "### Sub\n\n" :=
  ⟨fun st => by simp [handle_endtag], by decide⟩

/-- Claim C8: a data event whose text strips to empty is a complete no-op:
the resulting state (buffer and all tag-context fields) is unchanged.
(`transform` never raises: the embedding is a total function.) -/
theorem c8_blank_data_noop (st : ParserState) (d : String)
    (h : pyStrip d = "") : handle_data st d = st := by
  simp [handle_data, h]

/-- Claim C8, witness: whitespace-only data on the fresh state. -/
theorem c8_blank_data_noop_witness :
    pyStrip " \n\t " = "" ∧ handle_data initState " \n\t " = initState :=
  ⟨by decide, c8_blank_data_noop _ _ (by decide)⟩

/-- Scanning twice with the same start counter is the same as scanning
once: key lemma for the idempotence of the newline collapse. -/
theorem normNlAux_idem (cs : List Char) :
    ∀ k, normNlAux k (normNlAux k cs) = normNlAux k cs := by
  induction cs with
  | nil => intro k; rfl
  | cons c rest ih =>
    intro k
    by_cases hc : c = '\n'
    · subst hc
      by_cases hk : 2 ≤ k
      · simp [normNlAux, hk, ih]
      · simp [normNlAux, hk, ih]
    · simp [normNlAux, hc, ih]

/-- Claim C9: the final newline-collapse normalization (every run of three
or more newlines replaced by exactly two) is idempotent. -/
theorem c9_normalize_idem (s : String) :
    normalizeNewlines (normalizeNewlines s) = normalizeNewlines s :=
  congrArg String.mk (normNlAux_idem s.data 0)

/-- Claim C10: a data event only appends to the buffer — every tag-context
field is unchanged and the prior buffer is extended by some fragment
list. -/
theorem c10_data_frame (st : ParserState) (d : String) :
    (handle_data st d).in_header = st.in_header ∧
    (handle_data st d).in_strong = st.in_strong ∧
    (handle_data st d).in_blockquote = st.in_blockquote ∧
    (handle_data st d).list_level = st.list_level ∧
    (handle_data st d).small_text_level = st.small_text_level ∧
    (handle_data st d).current_tag = st.current_tag ∧
    ∃ frs, (handle_data st d).content = st.content ++ frs := by
  obtain ⟨frs, hf⟩ := handle_data_frame st d
  rw [hf]
  exact ⟨rfl, rfl, rfl, rfl, rfl, rfl, frs, rfl⟩
